import Mathlib

/-!
Verification development for the prism timer/notification core.

Shallow embedding of the four cooperating components of the backend core:
the durable job scheduler (`core/services/scheduler.ts`), the timer service
(`core/services/timer.ts`), the notification service
(`core/services/notifications.ts`) and the event bus
(`core/services/event-bus.ts`), together with the shared data model
(`shared/types/module.ts`).

Conventions of the embedding:
- JavaScript `Map<string, V>` becomes an association list `SMap V` with
  `Map.set` / `Map.get` / `Map.delete` semantics (`mapSet` updates in place,
  preserving insertion order, and appends new keys at the end).
- Instants (`Date.now()`, `DateTime.toMillis()`) are epoch milliseconds as
  `Int`; the ISO rendering `DateTime.utc().toISO()` is embedded by the
  injective encoding `isoOf`.
- Opaque `unknown` payloads are embedded as `Nat`.
- Asynchronous functions whose failure channel is promise rejection return
  `Except PrismErr _`; functions with no reachable throw return plain values
  or `.ok` in every branch.
- The BullMQ durable queue is embedded by its documented behaviour: a job
  added with a custom `jobId` option gets exactly that id, `getJob` looks a
  job up by id, a delayed job is consumed when the worker receives it, and a
  repeatable job stays scheduled.  The queue contents live in
  `SchedulerState.queueJobs`.
- Effects on the outside world (database writes, socket pushes, handler
  invocations, dispatched actions) are recorded as explicit traces so that
  theorems can talk about what was performed and in which order.
-/

set_option autoImplicit false

namespace Prism

/-! ## String-keyed maps (JavaScript `Map<string, V>`) -/

abbrev SMap (α : Type) : Type := List (String × α)

/-- Embedding of `Map.get(k)`. -/
def mapGet {α : Type} : SMap α → String → Option α
  | [], _ => none
  | (k', v) :: rest, k => if k' = k then some v else mapGet rest k

/-- Embedding of `Map.set(k, v)`: updates an existing key in place (keeping
its position) or appends a fresh key at the end. -/
def mapSet {α : Type} : SMap α → String → α → SMap α
  | [], k, v => [(k, v)]
  | (k', v') :: rest, k, v =>
    if k' = k then (k, v) :: rest else (k', v') :: mapSet rest k v

/-- Embedding of `Map.delete(k)`. -/
def mapErase {α : Type} (m : SMap α) (k : String) : SMap α :=
  m.filter (fun p => p.1 ≠ k)

/-! ## Shared data model (`shared/types/module.ts`) -/

/-- NotifyPayload from `shared/types/module.ts`: `userId`, `title`, `body`,
optional `channel`, optional opaque `meta` record. -/
structure NotifyPayload where
  userId : String
  title : String
  body : String
  channel : Option String := none
  meta : Option (SMap Nat) := none
deriving DecidableEq, Repr

/-- TimerAction tagged union from `shared/types/module.ts`. -/
inductive TimerAction where
  | notify (payload : NotifyPayload)
  | event (event : String) (payload : Nat)
  | message (channel : String) (payload : Nat)
deriving DecidableEq, Repr

/-- TimerStatus from `shared/types/module.ts`. -/
inductive TimerStatus where
  | pending
  | fired
  | cancelled
  | failed
deriving DecidableEq, Repr

/-- TimerEntry from `shared/types/module.ts`. -/
structure TimerEntry where
  id : String
  label : String
  action : TimerAction
  status : TimerStatus
  fireAt : String
  createdAt : String
deriving DecidableEq, Repr

/-- Injective stand-in for `DateTime.utc().toISO()` applied to an instant
given in epoch milliseconds. -/
def isoOf (ms : Int) : String := "iso:" ++ toString ms

/-- Error values thrown by the core; in the source they are all `Error`
objects distinguished by message. -/
inductive PrismErr where
  | schedulerUnavailable
  | invalidSchedule
  | timerNotFound (id : String)
  | persistenceFailure (msg : String)
  | handlerFailure (msg : String)
deriving DecidableEq, Repr

/-! ## Job scheduler (`core/services/scheduler.ts`) -/

/-- JobFn closures registered with the scheduler.  In the source a handler
is an arbitrary async closure; in this repository the closures registered
are the fire closures of `TimerService.after` / `TimerService.cron` and the
delayed-send closure of `NotificationService.schedule`, plus arbitrary
module-supplied handlers (`other`). -/
inductive JobFn where
  | delayedFire (timerId : String) (action : TimerAction)
  | cronFire (timerId : String) (action : TimerAction)
  | notifySend (payload : NotifyPayload)
  | other (tag : Nat)
deriving DecidableEq, Repr

/-- SchedulerJob bookkeeping record (`interface SchedulerJob` in
`scheduler.ts`): `id`, `name`, `type`. -/
inductive JobType where
  | cron
  | delayed
  | repeating
deriving DecidableEq, Repr

structure SchedulerJob where
  id : String
  name : String
  kind : JobType
deriving DecidableEq, Repr

/-- Scheduling options of a job held by the durable BullMQ queue. -/
inductive QueueKind where
  | delayedK (delayMs : Int)
  | repeatPattern (pattern : String)
deriving DecidableEq, Repr

/-- One job as held by the durable queue: its broker id, its name (used by
the worker to look up the handler) and its scheduling options. -/
structure QueueJob where
  id : String
  name : String
  kind : QueueKind
deriving DecidableEq, Repr

/-- State of one `Scheduler` instance: `_ready`, whether `queue` is
non-null, the durable queue contents, the local `jobs` bookkeeping map and
the `handlers` registry. -/
structure SchedulerState where
  ready : Bool
  queuePresent : Bool
  queueJobs : List QueueJob
  jobs : SMap SchedulerJob
  handlers : SMap JobFn
deriving DecidableEq, Repr

/-- Embedding of the private getter `isReady`:
`this._ready && this.queue !== null`. -/
def SchedulerState.isReady (s : SchedulerState) : Bool :=
  s.ready && s.queuePresent

/-- Embedding of `Scheduler._connect`, run from the constructor: on a
successful connection attempt `_ready := true` and the queue and worker are
created; if construction of either throws, `_ready := false` (degraded
state).  `connectOk` is the outcome of the attempt. -/
def Scheduler.construct (connectOk : Bool) : SchedulerState :=
  if connectOk then
    { ready := true, queuePresent := true, queueJobs := [], jobs := [], handlers := [] }
  else
    { ready := false, queuePresent := true, queueJobs := [], jobs := [], handlers := [] }

/-- Embedding of `Scheduler.add(name, cron, fn)` (cron add).  Returns the
new state and a flag telling whether the degraded-state warning was logged.
`assignedId` is the id the broker assigns to the repeatable job (the
`.then` callback stores it in `jobs` only when truthy, i.e. nonempty). -/
def Scheduler.add (s : SchedulerState) (name pattern : String) (fn : JobFn)
    (assignedId : String) : SchedulerState × Bool :=
  if s.isReady = false then (s, true)
  else
    let s1 : SchedulerState :=
      { s with handlers := mapSet s.handlers name fn,
               queueJobs := s.queueJobs ++ [{ id := assignedId, name := name,
                                              kind := .repeatPattern pattern }] }
    if assignedId ≠ "" then
      ({ s1 with jobs := mapSet s1.jobs assignedId
                   { id := assignedId, name := name, kind := .cron } }, false)
    else (s1, false)

/-- Embedding of `Scheduler.addDelayed(name, delay, fn)`.  In degraded state
it rejects with `Scheduler: Redis unavailable`.  Otherwise it registers the
handler and enqueues a one-shot job whose id is the custom
`jobId: name-Date.now()` option (so `job.id ?? name` is that custom id);
`now` is `Date.now()` at the call. -/
def Scheduler.addDelayed (s : SchedulerState) (name : String) (delayMs : Int)
    (fn : JobFn) (now : Int) : Except PrismErr (String × SchedulerState) :=
  if s.isReady = false then .error .schedulerUnavailable
  else
    let jid := name ++ "-" ++ toString now
    .ok (jid,
      { s with handlers := mapSet s.handlers name fn,
               queueJobs := s.queueJobs ++ [{ id := jid, name := name,
                                              kind := .delayedK delayMs }],
               jobs := mapSet s.jobs jid { id := jid, name := name, kind := .delayed } })

/-- Embedding of `Scheduler.remove(jobId)`: a silent no-op in degraded
state; otherwise `getJob(jobId)` on the durable queue, `job.remove()` when
found, then `jobs.delete(jobId)`.  No branch throws. -/
def Scheduler.remove (s : SchedulerState) (jobId : String) :
    Except PrismErr SchedulerState :=
  if s.isReady = false then .ok s
  else
    let s1 :=
      match s.queueJobs.find? (fun j => j.id = jobId) with
      | some _ => { s with queueJobs := s.queueJobs.filter (fun j => j.id ≠ jobId) }
      | none => s
    .ok { s1 with jobs := mapErase s1.jobs jobId }

/-! ## Notification service (`core/services/notifications.ts`) -/

/-- Notification row written by `db.notification.create` in `send`:
`{ userId, title, body, channel, meta }` with `meta ?? {}`. -/
structure NotificationRow where
  userId : String
  title : String
  body : String
  channel : String
  meta : SMap Nat
deriving DecidableEq, Repr

/-- Observable effects of one `NotificationService.send` call, in the order
they are performed. -/
inductive SendEffect where
  | persist (row : NotificationRow)
  | push (room : String) (title body channel : String) (meta : Option (SMap Nat))
  | runHandler (channel : String)
deriving DecidableEq, Repr

/-- Environment of a `NotificationService` instance at a `send` call: the
outcome of the Prisma `create` for a given row, whether a Socket.io server
is attached (`this.io !== null`), and the `channels` handler registry, each
handler giving the outcome of awaiting it on a payload. -/
structure NotifEnv where
  dbCreate : NotificationRow → Except PrismErr Unit
  ioAttached : Bool
  channels : SMap (NotifyPayload → Except PrismErr Unit)

/-- Notification row that `send` persists for a payload. -/
def rowOf (p : NotifyPayload) : NotificationRow :=
  { userId := p.userId, title := p.title, body := p.body,
    channel := p.channel.getD "default", meta := p.meta.getD [] }

/-- Embedding of `NotificationService.send(payload)`: persist (a failure of
the `create` rejects the call before any further effect), then push via
`this.io?.to(...)` (skipped when no socket is attached), then await the
registered channel handler when one exists (its rejection propagates).
Returns the performed effects in order, and the outcome. -/
def NotificationService.send (env : NotifEnv) (p : NotifyPayload) :
    List SendEffect × Except PrismErr Unit :=
  let channel := p.channel.getD "default"
  let row := rowOf p
  match env.dbCreate row with
  | .error e => ([], .error e)
  | .ok _ =>
    let effs :=
      [SendEffect.persist row] ++
        (if env.ioAttached then
          [SendEffect.push ("user:" ++ p.userId) p.title p.body channel p.meta]
         else [])
    match mapGet env.channels channel with
    | none => (effs, .ok ())
    | some h => (effs ++ [SendEffect.runHandler channel], h p)

/-- Embedding of `NotificationService.cancel(jobId)`: a plain delegation to
`Scheduler.remove`. -/
def NotificationService.cancel (s : SchedulerState) (jobId : String) :
    Except PrismErr SchedulerState :=
  Scheduler.remove s jobId

/-! ## Event bus (`core/services/event-bus.ts`)

The `EventBus` class wraps a Node `events.EventEmitter`; the emitter is
embedded by its documented semantics: per event name an array of listeners
in registration order, `emit` invokes a snapshot of that array one listener
at a time, and a `once` listener deregisters at its first invocation.
Handler closures are opaque and identified by a numeric id. -/

structure EBListener where
  hid : Nat
  oneShot : Bool
deriving DecidableEq, Repr

structure EventBus where
  listeners : SMap (List EBListener)
deriving DecidableEq, Repr

/-- Listener array currently registered for an event name. -/
def EventBus.getListeners (bus : EventBus) (ev : String) : List EBListener :=
  (mapGet bus.listeners ev).getD []

/-- Embedding of `EventBus.on`. -/
def EventBus.on (bus : EventBus) (ev : String) (h : Nat) : EventBus :=
  { listeners := mapSet bus.listeners ev (bus.getListeners ev ++ [{ hid := h, oneShot := false }]) }

/-- Embedding of `EventBus.once`. -/
def EventBus.once (bus : EventBus) (ev : String) (h : Nat) : EventBus :=
  { listeners := mapSet bus.listeners ev (bus.getListeners ev ++ [{ hid := h, oneShot := true }]) }

/-- Embedding of `EventBus.off`: removes the most recently added listener
for the handler, per `EventEmitter.removeListener`. -/
def removeLast (h : Nat) : List EBListener → List EBListener
  | [] => []
  | l :: rest =>
    let rest' := removeLast h rest
    if rest' = rest ∧ l.hid = h then rest else l :: rest'

def EventBus.off (bus : EventBus) (ev : String) (h : Nat) : EventBus :=
  { listeners := mapSet bus.listeners ev (removeLast h (bus.getListeners ev)) }

/-- Worker loop of `emit`: invoke each listener of the snapshot in turn,
returning the invocation trace. -/
def invokeAll : List EBListener → List Nat
  | [] => []
  | l :: rest => l.hid :: invokeAll rest

/-- Embedding of `EventBus.emit(event, payload)`: invokes every listener of
the current snapshot in order and removes the `once` listeners.  Returns
the ids of the handlers invoked, in invocation order, and the new bus. -/
def EventBus.emit (bus : EventBus) (ev : String) : List Nat × EventBus :=
  let ls := bus.getListeners ev
  (invokeAll ls,
   { listeners := mapSet bus.listeners ev (ls.filter (fun l => l.oneShot = false)) })

/-! ## Timer service (`core/services/timer.ts`) -/

/-- Combined state of a `TimerService` instance and the `Scheduler` it was
constructed with: the in-process `entries` map plus the scheduler state. -/
structure TimerSys where
  sched : SchedulerState
  entries : SMap TimerEntry
deriving DecidableEq, Repr

/-- Embedding of the private `TimerService.markStatus(id, status)`:
replaces the entry with a copy whose only changed field is `status`
(`{ ...entry, status }`); no-op when the id is unknown. -/
def markStatus (entries : SMap TimerEntry) (id : String) (status : TimerStatus) :
    SMap TimerEntry :=
  match mapGet entries id with
  | none => entries
  | some e => mapSet entries id { e with status := status }

/-- Embedding of `TimerService.after(label, delayMs, action)`.  `uuid` is
the `randomUUID()` drawn for this call and `now` is the current instant in
epoch milliseconds.  The entry is stored in `pending` before the scheduler
call, so a scheduler rejection leaves the entry behind and propagates. -/
def TimerService.after (sys : TimerSys) (label : String) (delayMs : Int)
    (action : TimerAction) (uuid : String) (now : Int) :
    TimerSys × Except PrismErr String :=
  let entry : TimerEntry :=
    { id := uuid, label := label, action := action, status := .pending,
      fireAt := isoOf (now + delayMs), createdAt := isoOf now }
  let entries1 := mapSet sys.entries uuid entry
  match Scheduler.addDelayed sys.sched ("timer:" ++ uuid) delayMs
      (.delayedFire uuid action) now with
  | .error e => ({ sys with entries := entries1 }, .error e)
  | .ok (_jid, sched1) => ({ sched := sched1, entries := entries1 }, .ok uuid)

/-- Embedding of `TimerService.at(label, dt, action)`: computes
`delay = dt.toMillis() - Date.now()`, throws when `delay < 0`, otherwise
defers to `after`. -/
def TimerService.at (sys : TimerSys) (label : String) (target : Int)
    (action : TimerAction) (uuid : String) (now : Int) :
    TimerSys × Except PrismErr String :=
  let delay := target - now
  if delay < 0 then (sys, .error .invalidSchedule)
  else TimerService.after sys label delay action uuid now

/-- Embedding of `TimerService.cron(label, cronExpr, action)`: stores a
`pending` entry whose `fireAt` encodes the cron expression, then registers
the repeating fire closure via the fire-and-forget `Scheduler.add`.
`assignedId` is the broker id of the repeatable job. -/
def TimerService.cron (sys : TimerSys) (label cronExpr : String)
    (action : TimerAction) (uuid : String) (now : Int) (assignedId : String) :
    TimerSys × String :=
  let entry : TimerEntry :=
    { id := uuid, label := label, action := action, status := .pending,
      fireAt := "cron:" ++ cronExpr, createdAt := isoOf now }
  let entries1 := mapSet sys.entries uuid entry
  let (sched1, _warned) :=
    Scheduler.add sys.sched ("timer:" ++ uuid) cronExpr (.cronFire uuid action) assignedId
  ({ sched := sched1, entries := entries1 }, uuid)

/-- Embedding of `TimerService.cancel(timerId)`: throws `TimerNotFound`
when the id is unknown; otherwise awaits `scheduler.remove("timer:" + id)`
and marks the entry `cancelled`. -/
def TimerService.cancel (sys : TimerSys) (timerId : String) :
    TimerSys × Except PrismErr Unit :=
  match mapGet sys.entries timerId with
  | none => (sys, .error (.timerNotFound timerId))
  | some _ =>
    match Scheduler.remove sys.sched ("timer:" ++ timerId) with
    | .error e => (sys, .error e)
    | .ok sched1 =>
      ({ sched := sched1, entries := markStatus sys.entries timerId .cancelled }, .ok ())

/-- Embedding of the private `TimerService.dispatch(action)`: `notify`
awaits `NotificationService.send` (whose rejection propagates), `event`
and `message` emit on the event bus synchronously.  Returns the outcome and
the action dispatched. -/
def dispatch (env : NotifEnv) (action : TimerAction) :
    Except PrismErr Unit × List TimerAction :=
  match action with
  | .notify p => ((NotificationService.send env p).2, [action])
  | .event _ _ => (.ok (), [action])
  | .message _ _ => (.ok (), [action])

/-- Execution of one registered JobFn closure by the scheduler worker,
over the timer-service state.  Returns the new state, the actions
dispatched, and the job outcome (a rejection makes the worker log the job
as failed). -/
def runJobFn (sys : TimerSys) (env : NotifEnv) (fn : JobFn) :
    TimerSys × List TimerAction × Except PrismErr Unit :=
  match fn with
  | .delayedFire id act =>
    let entries1 := markStatus sys.entries id .fired
    let (res, tr) := dispatch env act
    ({ sys with entries := entries1 }, tr, res)
  | .cronFire id act =>
    let entries1 := markStatus sys.entries id .fired
    let (res, tr) := dispatch env act
    match res with
    | .ok _ => ({ sys with entries := markStatus entries1 id .pending }, tr, .ok ())
    | .error e => ({ sys with entries := entries1 }, tr, .error e)
  | .notifySend p =>
    ({ sys with entries := sys.entries }, [], (NotificationService.send env p).2)
  | .other _ => (sys, [], .ok ())

/-- Delivery of one due job by the broker to the scheduler worker
(`scheduler.ts`, the `Worker` processor): the job named `jobId` is taken
from the durable queue (a one-shot delayed job is consumed, a repeatable
job stays armed), the handler is looked up by the job's name, and a missing
handler is logged and dropped.  Returns the new state, the dispatched
actions and the job outcome. -/
def processFire (sys : TimerSys) (env : NotifEnv) (jobId : String) :
    TimerSys × List TimerAction × Except PrismErr Unit :=
  match sys.sched.queueJobs.find? (fun j => j.id = jobId) with
  | none => (sys, [], .ok ())
  | some job =>
    let sched1 :=
      match job.kind with
      | .delayedK _ =>
        { sys.sched with queueJobs := sys.sched.queueJobs.filter (fun j => j.id ≠ jobId) }
      | .repeatPattern _ => sys.sched
    let sys1 : TimerSys := { sys with sched := sched1 }
    match mapGet sys1.sched.handlers job.name with
    | none => (sys1, [], .ok ())
    | some fn => runJobFn sys1 env fn

/-! ## Concrete states used by witnesses -/

/-- Environment with no database failures, no socket, no channel handlers. -/
def plainEnv : NotifEnv :=
  { dbCreate := fun _ => .ok (), ioAttached := false, channels := [] }

/-- Environment whose database rejects every write. -/
def dbDownEnv : NotifEnv :=
  { dbCreate := fun _ => .error (.persistenceFailure "db down"), ioAttached := true,
    channels := [] }

/-- Environment whose registered handler for channel `a` rejects. -/
def handlerFailEnv : NotifEnv :=
  { dbCreate := fun _ => .ok (), ioAttached := true,
    channels := [("a", fun _ => .error (.handlerFailure "smtp down"))] }

/-- Payload addressed to channel `a`. -/
def chanPayload : NotifyPayload :=
  { userId := "u1", title := "t", body := "b", channel := some "a" }

/-! ## Lemmas about the map embedding -/

theorem mapGet_mapSet_self {α : Type} (m : SMap α) (k : String) (v : α) :
    mapGet (mapSet m k v) k = some v := by
  induction m with
  | nil => simp [mapSet, mapGet]
  | cons p rest ih =>
    by_cases h : p.1 = k
    · simp [mapSet, mapGet, h]
    · simp [mapSet, mapGet, h, ih]

theorem mapGet_mapSet_ne {α : Type} (m : SMap α) (k k' : String) (v : α)
    (h : k' ≠ k) : mapGet (mapSet m k v) k' = mapGet m k' := by
  have hk : ¬ k = k' := fun he => h he.symm
  induction m with
  | nil => simp [mapSet, mapGet, hk]
  | cons p rest ih =>
    obtain ⟨a, b⟩ := p
    by_cases hp : a = k
    · subst hp
      simp [mapSet, mapGet, hk]
    · simp [mapSet, mapGet, hp, ih]

theorem mapErase_idem {α : Type} (m : SMap α) (k : String) :
    mapErase (mapErase m k) k = mapErase m k := by
  induction m with
  | nil => rfl
  | cons p rest ih =>
    by_cases h : p.1 = k <;> simp_all [mapErase]

theorem invokeAll_eq_map (ls : List EBListener) :
    invokeAll ls = ls.map (fun l => l.hid) := by
  induction ls with
  | nil => rfl
  | cons l rest ih => simp [invokeAll, ih]

/-! ## Theorems for the claims -/

/-- C7: `EventBus.emit(eventName, payload)` invokes every handler currently
registered for `eventName` exactly once per call, in registration order
(the invocation trace is exactly the listener array, which `on` extends at
the end), and invokes zero handlers when no handler is registered for
`eventName`. -/
theorem eventbus_emit_in_registration_order (bus : EventBus) (ev : String) (h : Nat) :
    (bus.emit ev).1 = (bus.getListeners ev).map (fun l => l.hid) ∧
    (bus.on ev h).getListeners ev =
      bus.getListeners ev ++ [{ hid := h, oneShot := false }] ∧
    (mapGet bus.listeners ev = none → (bus.emit ev).1 = []) := by
  refine ⟨?_, ?_, ?_⟩
  · simpa [EventBus.emit] using invokeAll_eq_map (bus.getListeners ev)
  · simp [EventBus.on, EventBus.getListeners, mapGet_mapSet_self]
  · intro hnone
    simp [EventBus.emit, EventBus.getListeners, hnone, invokeAll]

/-- Witness for C7 at a concrete bus with two subscribers on `e` and an
event `z` with no subscribers. -/
theorem eventbus_emit_in_registration_order_witness :
    ((((EventBus.mk []).on "e" 1).on "e" 2).emit "e").1 =
      (((( EventBus.mk []).on "e" 1).on "e" 2).getListeners "e").map (fun l => l.hid) ∧
    (((((EventBus.mk []).on "e" 1).on "e" 2).on "e" 3).getListeners "e") =
      ((((EventBus.mk []).on "e" 1).on "e" 2).getListeners "e") ++ [{ hid := 3, oneShot := false }] ∧
    (((((EventBus.mk []).on "e" 1).on "e" 2)).emit "z").1 = [] := by
  have h1 := eventbus_emit_in_registration_order (((EventBus.mk []).on "e" 1).on "e" 2) "e" 3
  have h2 := eventbus_emit_in_registration_order (((EventBus.mk []).on "e" 1).on "e" 2) "z" 0
  exact ⟨h1.1, h1.2.1, h2.2.2 (by decide)⟩

/-- C10: `NotificationService.cancel(jobId)` resolves without error for
every scheduler state and every jobId (it delegates to the idempotent
`Scheduler.remove`, which has no throwing branch). -/
theorem notification_cancel_never_errors (s : SchedulerState) (jobId : String) :
    ∃ s', NotificationService.cancel s jobId = .ok s' := by
  unfold NotificationService.cancel Scheduler.remove
  by_cases h : s.isReady = false
  · exact ⟨s, by simp [h]⟩
  · rcases hfind : s.queueJobs.find? (fun j => j.id = jobId) with _ | job
    · exact ⟨{ s with jobs := mapErase s.jobs jobId }, by simp [h, hfind]⟩
    · exact ⟨{ s with
                 queueJobs := s.queueJobs.filter (fun j => j.id ≠ jobId),
                 jobs := mapErase s.jobs jobId },
             by simp [h, hfind]⟩

/-- C2: on a scheduler in degraded state (`ready = false`), `add` (cron
add) logs its warning and returns with the state unchanged — in particular
the handler is not registered — while `addDelayed` rejects with the
`SchedulerUnavailable` error instead of returning a job id. -/
theorem scheduler_degraded_behaviour (s : SchedulerState) (hready : s.ready = false)
    (name pattern : String) (fn : JobFn) (assignedId : String)
    (name2 : String) (delayMs : Int) (fn2 : JobFn) (now : Int) :
    Scheduler.add s name pattern fn assignedId = (s, true) ∧
    Scheduler.addDelayed s name2 delayMs fn2 now = .error .schedulerUnavailable := by
  have h : s.isReady = false := by simp [SchedulerState.isReady, hready]
  constructor
  · simp [Scheduler.add, h]
  · simp [Scheduler.addDelayed, h]

/-- Witness for C2 on the state produced by a failed connection attempt. -/
theorem scheduler_degraded_behaviour_witness :
    Scheduler.add (Scheduler.construct false) "x" "p" (.other 0) "" =
      (Scheduler.construct false, true) ∧
    Scheduler.addDelayed (Scheduler.construct false) "y" 1000 (.other 1) 0 =
      .error .schedulerUnavailable :=
  scheduler_degraded_behaviour (Scheduler.construct false) (by decide)
    "x" "p" (.other 0) "" "y" 1000 (.other 1) 0

/-- C6: `TimerService.at(label, targetTime, action)` with a target strictly
in the past (`target - now < 0`) fails with `InvalidSchedule` leaving the
state untouched (no scheduler job, no TimerEntry); with a target at or
after `now` it defers to `after` with the computed delay. -/
theorem timer_at_validates (sys : TimerSys) (label : String) (target now : Int)
    (action : TimerAction) (uuid : String) :
    (target - now < 0 →
      TimerService.at sys label target action uuid now = (sys, .error .invalidSchedule)) ∧
    (0 ≤ target - now →
      TimerService.at sys label target action uuid now =
        TimerService.after sys label (target - now) action uuid now) := by
  constructor
  · intro h
    simp [TimerService.at, h]
  · intro h
    simp [TimerService.at, not_lt.mpr h]

/-- Witness for C6: a past target fails, a future target defers to
`after`. -/
theorem timer_at_validates_witness :
    TimerService.at { sched := Scheduler.construct true, entries := [] } "l" 5
        (.event "e" 0) "t1" 10 =
      ({ sched := Scheduler.construct true, entries := [] }, .error .invalidSchedule) ∧
    TimerService.at { sched := Scheduler.construct true, entries := [] } "l" 10
        (.event "e" 0) "t1" 5 =
      TimerService.after { sched := Scheduler.construct true, entries := [] } "l" 5
        (.event "e" 0) "t1" 5 :=
  ⟨(timer_at_validates { sched := Scheduler.construct true, entries := [] } "l" 5 10
      (.event "e" 0) "t1").1 (by decide),
   (timer_at_validates { sched := Scheduler.construct true, entries := [] } "l" 10 5
      (.event "e" 0) "t1").2 (by decide)⟩

/-- Helper: a job id filtered out of the queue can no longer be found. -/
theorem find_filter_self_none (l : List QueueJob) (j : String) :
    (l.filter (fun q => q.id ≠ j)).find? (fun q => q.id = j) = none := by
  rw [List.find?_eq_none]
  intro x hx
  rw [List.mem_filter] at hx
  simpa using hx.2

/-- Helper: `find?` with an always-false predicate finds nothing. -/
theorem find_const_false_none {α : Type} (l : List α) :
    l.find? (fun _ => false) = none := by
  induction l with
  | nil => rfl
  | cons a t ih => simp [List.find?_cons, ih]

/-- C8: `Scheduler.remove(jobId)` never rejects; in degraded state it is a
silent no-op; for a jobId absent from the durable queue (unknown, already
executed or already removed) it only deletes the local bookkeeping for that
id; and `remove` after `remove` reproduces the state of the single
`remove`. -/
theorem scheduler_remove_idempotent (s : SchedulerState) (j : String) :
    (∃ s', Scheduler.remove s j = .ok s') ∧
    (s.isReady = false → Scheduler.remove s j = .ok s) ∧
    (s.isReady = true → (∀ q ∈ s.queueJobs, q.id ≠ j) →
      Scheduler.remove s j = .ok { s with jobs := mapErase s.jobs j }) ∧
    (∀ s', Scheduler.remove s j = .ok s' → Scheduler.remove s' j = .ok s') := by
  refine ⟨?_, ?_, ?_, ?_⟩
  · by_cases h : s.isReady = false
    · exact ⟨s, by simp [Scheduler.remove, h]⟩
    · rcases hfind : s.queueJobs.find? (fun q => q.id = j) with _ | job
      · exact ⟨{ s with jobs := mapErase s.jobs j }, by simp [Scheduler.remove, h, hfind]⟩
      · exact ⟨{ s with
                   queueJobs := s.queueJobs.filter (fun q => q.id ≠ j),
                   jobs := mapErase s.jobs j },
               by simp [Scheduler.remove, h, hfind]⟩
  · intro h
    simp [Scheduler.remove, h]
  · intro hr hq
    have hfind : s.queueJobs.find? (fun q => q.id = j) = none :=
      List.find?_eq_none.mpr (fun x hx => by simpa using hq x hx)
    simp [Scheduler.remove, hr, hfind]
  · intro s' hs'
    by_cases h : s.isReady = false
    · have hss : s = s' := by simpa [Scheduler.remove, h] using hs'
      subst hss
      simp [Scheduler.remove, h]
    · have hr : s.isReady = true := by
        cases hb : s.isReady with
        | false => exact absurd hb h
        | true => rfl
      have hrb : (s.ready && s.queuePresent) = true := by
        simpa [SchedulerState.isReady] using hr
      rcases hfind : s.queueJobs.find? (fun q => q.id = j) with _ | job
      · have hss : s' = { s with jobs := mapErase s.jobs j } := by
          have := hs'
          simp [Scheduler.remove, hr, hfind] at this
          exact this.symm
        subst hss
        simp [Scheduler.remove, SchedulerState.isReady, hrb, hfind, mapErase_idem]
      · have heq := hs'
        simp [Scheduler.remove, hr, hfind] at heq
        subst heq
        simp [Scheduler.remove, SchedulerState.isReady, hrb,
              find_const_false_none, mapErase_idem]

/-- Witness for C8 on a ready scheduler holding one unrelated queue job. -/
theorem scheduler_remove_idempotent_witness :
    (∃ s', Scheduler.remove (Scheduler.construct true) "j" = .ok s') ∧
    Scheduler.remove (Scheduler.construct false) "j" = .ok (Scheduler.construct false) ∧
    Scheduler.remove (Scheduler.construct true) "j" =
      .ok { Scheduler.construct true with jobs := mapErase (Scheduler.construct true).jobs "j" } ∧
    Scheduler.remove (Scheduler.construct true) "j" = .ok (Scheduler.construct true) := by
  have h1 := scheduler_remove_idempotent (Scheduler.construct true) "j"
  have h2 := scheduler_remove_idempotent (Scheduler.construct false) "j"
  refine ⟨h1.1, h2.2.1 (by decide), h1.2.2.1 (by decide) (by intro q hq; cases hq), ?_⟩
  exact h1.2.2.2 (Scheduler.construct true) (h1.2.2.1 (by decide) (by intro q hq; cases hq))

/-- C4: `NotificationService.send` performs its effects in the order
persist, realtime push (when a socket is attached), channel handler (when
one is registered); a failure of the persistence step propagates to the
caller and no later effect is performed. -/
theorem notify_send_three_effects (env : NotifEnv) (p : NotifyPayload) :
    (∀ e, env.dbCreate (rowOf p) = .error e →
      NotificationService.send env p = ([], .error e)) ∧
    (env.dbCreate (rowOf p) = .ok () →
      (NotificationService.send env p).1 =
        [SendEffect.persist (rowOf p)] ++
        (if env.ioAttached then
          [SendEffect.push ("user:" ++ p.userId) p.title p.body
            (p.channel.getD "default") p.meta]
         else []) ++
        (if (mapGet env.channels (p.channel.getD "default")).isSome then
          [SendEffect.runHandler (p.channel.getD "default")]
         else [])) := by
  constructor
  · intro e he
    simp [NotificationService.send, he]
  · intro hok
    cases hch : mapGet env.channels (p.channel.getD "default") with
    | none => simp [NotificationService.send, hok, hch]
    | some f => simp [NotificationService.send, hok, hch]

/-- Witness for C4: a failing store write propagates with no effects
performed; a clean environment yields the effect list in order. -/
theorem notify_send_three_effects_witness :
    NotificationService.send dbDownEnv chanPayload =
      ([], .error (.persistenceFailure "db down")) ∧
    (NotificationService.send plainEnv chanPayload).1 =
      [SendEffect.persist (rowOf chanPayload)] ++
      (if plainEnv.ioAttached then
        [SendEffect.push ("user:" ++ chanPayload.userId) chanPayload.title
          chanPayload.body (chanPayload.channel.getD "default") chanPayload.meta]
       else []) ++
      (if (mapGet plainEnv.channels (chanPayload.channel.getD "default")).isSome then
        [SendEffect.runHandler (chanPayload.channel.getD "default")]
       else []) :=
  ⟨(notify_send_three_effects dbDownEnv chanPayload).1 _ rfl,
   (notify_send_three_effects plainEnv chanPayload).2 rfl⟩

/-- C3 as stated is false on the code: with a successfully persisted row, a
rejection of the registered channel handler surfaces to the caller of
`send` (the handler is awaited without a catch). -/
theorem notify_send_handler_failure_surfaces :
    handlerFailEnv.dbCreate (rowOf chanPayload) = .ok () ∧
    (NotificationService.send handlerFailEnv chanPayload).2 =
      .error (.handlerFailure "smtp down") :=
  ⟨rfl, rfl⟩

/-- C3 amended: a missing realtime sink and a missing channel handler are
never surfaced — `send` resolves whenever the persistence step succeeded
and the registered channel handler (if any) succeeds; only a registered
handler's own rejection reaches the caller. -/
theorem notify_send_best_effort (env : NotifEnv) (p : NotifyPayload)
    (hdb : env.dbCreate (rowOf p) = .ok ())
    (hh : ∀ f, mapGet env.channels (p.channel.getD "default") = some f → f p = .ok ()) :
    (NotificationService.send env p).2 = .ok () := by
  cases hch : mapGet env.channels (p.channel.getD "default") with
  | none => simp [NotificationService.send, hdb, hch]
  | some f => simp [NotificationService.send, hdb, hch, hh f hch]

/-- Witness for the amended C3 in an environment with no socket attached
and no channel handler registered. -/
theorem notify_send_best_effort_witness :
    (NotificationService.send plainEnv chanPayload).2 = .ok () :=
  notify_send_best_effort plainEnv chanPayload rfl
    (fun f hf => by simp [plainEnv, mapGet] at hf)

/-- Helper: an entry found under `id` after `markStatus id st` has status
`st`. -/
theorem mapGet_markStatus_status (entries : SMap TimerEntry) (i : String)
    (st : TimerStatus) (x : TimerEntry)
    (hx : mapGet (markStatus entries i st) i = some x) : x.status = st := by
  unfold markStatus at hx
  cases hg : mapGet entries i with
  | none => simp [hg] at hx
  | some e0 =>
    simp [hg, mapGet_mapSet_self] at hx
    subst hx
    rfl

/-- C5: a completed fire of a cron timer's handler (the repeating closure
registered by `TimerService.cron`, looked up by job name and run by the
worker) leaves the TimerEntry back in `pending`: it never remains
`fired`. -/
theorem cron_fire_rearms (sys : TimerSys) (env : NotifEnv) (jobId id : String)
    (act : TimerAction) (job : QueueJob) (sys' : TimerSys) (e : TimerEntry)
    (hjob : sys.sched.queueJobs.find? (fun q => q.id = jobId) = some job)
    (hfn : mapGet sys.sched.handlers job.name = some (.cronFire id act))
    (hok : (processFire sys env jobId).2.2 = .ok ())
    (hsys' : (processFire sys env jobId).1 = sys')
    (he : mapGet sys'.entries id = some e) :
    e.status = .pending ∧ e.status ≠ .fired := by
  rcases hd : dispatch env act with ⟨res, tr2⟩
  cases hk : job.kind with
  | delayedK d =>
    cases res with
    | ok u =>
      cases u
      simp [processFire, hjob, hk, hfn, runJobFn, hd] at hsys'
      rw [← hsys'] at he
      simp at he
      have hst := mapGet_markStatus_status _ id .pending e he
      exact ⟨hst, by simp [hst]⟩
    | error er =>
      simp [processFire, hjob, hk, hfn, runJobFn, hd] at hok
  | repeatPattern pat =>
    cases res with
    | ok u =>
      cases u
      simp [processFire, hjob, hk, hfn, runJobFn, hd] at hsys'
      rw [← hsys'] at he
      simp at he
      have hst := mapGet_markStatus_status _ id .pending e he
      exact ⟨hst, by simp [hst]⟩
    | error er =>
      simp [processFire, hjob, hk, hfn, runJobFn, hd] at hok

/-- Concrete cron setup used by the C5 witness: one cron timer registered
on a ready scheduler, then fired once. -/
def cronSys : TimerSys :=
  (TimerService.cron { sched := Scheduler.construct true, entries := [] }
    "daily" "c" (.event "tick" 1) "t1" 0 "rid").1

def cronFired : TimerSys := (processFire cronSys plainEnv "rid").1

def cronEntry : TimerEntry :=
  { id := "t1", label := "daily", action := .event "tick" 1, status := .pending,
    fireAt := "cron:c", createdAt := isoOf 0 }

/-- Witness for C5: after one completed fire of the cron timer the entry
is back in `pending`. -/
theorem cron_fire_rearms_witness :
    cronEntry.status = .pending ∧ cronEntry.status ≠ .fired :=
  cron_fire_rearms cronSys plainEnv "rid" "t1" (.event "tick" 1)
    { id := "rid", name := "timer:t1", kind := .repeatPattern "c" }
    cronFired cronEntry rfl rfl rfl rfl rfl

/-- C9: status transitions touch only the `status` field (the entry keeps
its `id`, `label`, `action`, `fireAt`, `createdAt`, and other entries are
untouched), and the action supplied at scheduling time is the action
carried in the registered fire closure for each of the three scheduling
paths — `after` and `at` register `delayedFire` with exactly the supplied
action, `cron` registers `cronFire` with exactly the supplied action — and
either fire closure dispatches exactly that action at fire time. -/
theorem timer_action_carried_unchanged (entries : SMap TimerEntry)
    (id id' : String) (st : TimerStatus) (sys : TimerSys) (label : String)
    (delayMs target : Int) (act : TimerAction)
    (uuid cronExpr assignedId : String) (now : Int) (env : NotifEnv) :
    (∀ e, mapGet entries id = some e →
      mapGet (markStatus entries id st) id =
        some { id := e.id, label := e.label, action := e.action, status := st,
               fireAt := e.fireAt, createdAt := e.createdAt }) ∧
    (id' ≠ id → mapGet (markStatus entries id st) id' = mapGet entries id') ∧
    (∀ sys' r, TimerService.after sys label delayMs act uuid now = (sys', .ok r) →
      mapGet sys'.sched.handlers ("timer:" ++ uuid) = some (.delayedFire uuid act)) ∧
    (∀ sys' r, TimerService.at sys label target act uuid now = (sys', .ok r) →
      mapGet sys'.sched.handlers ("timer:" ++ uuid) = some (.delayedFire uuid act)) ∧
    (sys.sched.isReady = true →
      mapGet ((TimerService.cron sys label cronExpr act uuid now assignedId).1).sched.handlers
        ("timer:" ++ uuid) = some (.cronFire uuid act)) ∧
    (runJobFn sys env (.delayedFire uuid act)).2.1 = [act] ∧
    (runJobFn sys env (.cronFire uuid act)).2.1 = [act] := by
  have hafter : ∀ (d : Int) (sys' : TimerSys) (r : String),
      TimerService.after sys label d act uuid now = (sys', .ok r) →
      mapGet sys'.sched.handlers ("timer:" ++ uuid) = some (.delayedFire uuid act) := by
    intro d sys' r h
    unfold TimerService.after at h
    cases haddd : Scheduler.addDelayed sys.sched ("timer:" ++ uuid) d
        (.delayedFire uuid act) now with
    | error e => rw [haddd] at h; simp at h
    | ok pr =>
      obtain ⟨jid, sched1⟩ := pr
      rw [haddd] at h
      simp at h
      unfold Scheduler.addDelayed at haddd
      by_cases hrdy : sys.sched.isReady = false
      · rw [if_pos hrdy] at haddd; cases haddd
      · rw [if_neg hrdy] at haddd
        simp at haddd
        rw [← h.1]
        simp [← haddd.2, mapGet_mapSet_self]
  refine ⟨?_, ?_, hafter delayMs, ?_, ?_, ?_, ?_⟩
  · intro e he
    simp [markStatus, he, mapGet_mapSet_self]
  · intro hne
    unfold markStatus
    cases hg : mapGet entries id with
    | none => rfl
    | some e0 => exact mapGet_mapSet_ne entries id id' _ hne
  · intro sys' r h
    by_cases hlt : target - now < 0
    · simp [TimerService.at, hlt] at h
    · simp [TimerService.at, hlt] at h
      exact hafter (target - now) sys' r h
  · intro hr
    by_cases haid : assignedId = ""
    · simp [TimerService.cron, Scheduler.add, hr, haid, mapGet_mapSet_self]
    · simp [TimerService.cron, Scheduler.add, hr, haid, mapGet_mapSet_self]
  · cases act <;> rfl
  · cases act with
    | notify p =>
      cases hs : (NotificationService.send env p).2 with
      | ok u => simp [runJobFn, dispatch, hs]
      | error er => simp [runJobFn, dispatch, hs]
    | event n pl => rfl
    | message c pl => rfl

/-- Witness states for C9: two entries and one `after` call on a ready
scheduler. -/
def frameEntries : SMap TimerEntry :=
  [("t1", { id := "t1", label := "l", action := .event "e" 0, status := .pending,
            fireAt := "f", createdAt := "c" }),
   ("t2", { id := "t2", label := "m", action := .event "g" 1, status := .pending,
            fireAt := "f2", createdAt := "c2" })]

def afterSys : TimerSys :=
  (TimerService.after { sched := Scheduler.construct true, entries := [] }
    "l" 5 (.event "e" 0) "u1" 0).1

def atSys : TimerSys :=
  (TimerService.at { sched := Scheduler.construct true, entries := [] }
    "l" 5 (.event "e" 0) "u1" 0).1

/-- Witness for C9 at the concrete states above: all three scheduling
paths register the supplied action and both fire closures dispatch it. -/
theorem timer_action_carried_unchanged_witness :
    mapGet (markStatus frameEntries "t1" .fired) "t1" =
      some { id := "t1", label := "l", action := .event "e" 0, status := .fired,
             fireAt := "f", createdAt := "c" } ∧
    mapGet (markStatus frameEntries "t1" .fired) "t2" = mapGet frameEntries "t2" ∧
    mapGet afterSys.sched.handlers ("timer:" ++ "u1") =
      some (.delayedFire "u1" (.event "e" 0)) ∧
    mapGet atSys.sched.handlers ("timer:" ++ "u1") =
      some (.delayedFire "u1" (.event "e" 0)) ∧
    mapGet ((TimerService.cron { sched := Scheduler.construct true, entries := [] }
        "l" "x" (.event "e" 0) "u1" 0 "rid").1).sched.handlers ("timer:" ++ "u1") =
      some (.cronFire "u1" (.event "e" 0)) ∧
    (runJobFn afterSys plainEnv (.delayedFire "u1" (.event "e" 0))).2.1 =
      [.event "e" 0] ∧
    (runJobFn afterSys plainEnv (.cronFire "u1" (.event "e" 0))).2.1 =
      [.event "e" 0] := by
  have h := timer_action_carried_unchanged frameEntries "t1" "t2" .fired
    { sched := Scheduler.construct true, entries := [] } "l" 5 5 (.event "e" 0)
    "u1" "x" "rid" 0 plainEnv
  have h2 := timer_action_carried_unchanged frameEntries "t1" "t2" .fired
    afterSys "l" 5 5 (.event "e" 0) "u1" "x" "rid" 0 plainEnv
  exact ⟨h.1 _ rfl, h.2.1 (by decide), h.2.2.1 afterSys "u1" rfl,
         h.2.2.2.1 atSys "u1" rfl, h.2.2.2.2.1 (by decide),
         h2.2.2.2.2.2.1, h2.2.2.2.2.2.2⟩

/-- Concrete run of the C1 scenario: `after("x", 1000, event-ping)` drawing
timer id `t1` at instant 0, then `cancel("t1")` before the delay elapses,
then delivery of the still-queued job at the delay. -/
def c1after : TimerSys × Except PrismErr String :=
  TimerService.after { sched := Scheduler.construct true, entries := [] }
    "x" 1000 (.event "ping" 1) "t1" 0

def c1cancel : TimerSys × Except PrismErr Unit :=
  TimerService.cancel c1after.1 "t1"

def c1fire : TimerSys × List TimerAction × Except PrismErr Unit :=
  processFire c1cancel.1 plainEnv "timer:t1-0"

/-- C1 fails on the code: `addDelayed` enqueues the job under the id
`timer:t1-0` (name plus `Date.now()`), while `cancel` removes by the bare
name `timer:t1`, so the durable job survives the cancel; the entry is
`cancelled` only until the delay elapses, when the broker still fires the
job, the action is dispatched, and the entry is re-marked `fired`. -/
theorem timer_cancel_leaves_durable_job :
    c1after.2 = .ok "t1" ∧
    c1cancel.2 = .ok () ∧
    c1cancel.1.sched.queueJobs =
      [{ id := "timer:t1-0", name := "timer:t1", kind := .delayedK 1000 }] ∧
    mapGet c1cancel.1.entries "t1" =
      some { id := "t1", label := "x", action := .event "ping" 1,
             status := .cancelled, fireAt := isoOf 1000, createdAt := isoOf 0 } ∧
    c1fire.2.1 = [.event "ping" 1] ∧
    c1fire.2.2 = .ok () ∧
    mapGet c1fire.1.entries "t1" =
      some { id := "t1", label := "x", action := .event "ping" 1,
             status := .fired, fireAt := isoOf 1000, createdAt := isoOf 0 } :=
  ⟨rfl, rfl, rfl, rfl, rfl, rfl, rfl⟩

end Prism
